import Mathlib

/-!
Verification development for the Docling document-processing service
(job orchestration subsystem: configuration/timeout formula, job queue,
worker state machine, cancellation, HTTP route marshalling and the
trace-context middleware).

Shallow embedding conventions:
* Python machine integers are `ℤ`/`ℕ` (Python ints are unbounded).
* Python floats only ever hold exact dyadic values in this code
  (multipliers 0.5 / 1.0 / 2.0 applied to integers), so float
  arithmetic is embedded as exact `ℚ` arithmetic; `int()` truncation
  toward zero is `pyInt`.
* `None` is `Option.none`; a fallible Python call is `Except`.
* UUIDs are abstracted: job ids are naturals drawn from a fresh
  counter, and freshly minted uuid strings are explicit parameters of
  the operations that draw them.
* Wall-clock timestamps are abstract naturals supplied per step.
-/

/-- Python `int()` on an exact rational: truncation toward zero
(`config.py` line 73 applies `int(...)` to the timeout product). -/
def pyInt (q : ℚ) : ℤ :=
  if 0 ≤ q then ⌊q⌋ else ⌈q⌉

/-- Application settings (`config.py` `Settings`), restricted to the
fields the claims touch, with the source defaults. -/
structure Settings where
  processing_tier : String := "standard"
  max_concurrent_jobs : ℕ := 1
  timeout_base_seconds : ℤ := 60
  timeout_per_page_seconds : ℤ := 10
deriving DecidableEq

/-- Global settings instance with defaults (`config.py` line 51). -/
def settings : Settings := {}

/-- The `tier_multipliers` dict of `config.py` lines 64-68 as a
lookup; `none` stands for a key that is absent from the dict. -/
def tierMultipliers (t : String) : Option ℚ :=
  if t = "lightweight" then some (1 / 2)
  else if t = "standard" then some 1
  else if t = "advanced" then some 2
  else none

/-- The local `effective_tier = tier or settings.processing_tier` of
`config.py` line 70: both `None` and the (falsy) empty string fall
back to the configured default tier. -/
def effectiveTier (cfg : Settings) : Option String → String
  | some t => if t = "" then cfg.processing_tier else t
  | none => cfg.processing_tier

/-- `config.py` `calculate_timeout` (lines 54-75):
`int((base + page_count * per_page) * tier_multipliers.get(effective_tier, 1.0))`. -/
def calculate_timeout (cfg : Settings) (page_count : ℕ) (tier : Option String) : ℤ :=
  pyInt (((cfg.timeout_base_seconds : ℚ)
    + (page_count : ℚ) * (cfg.timeout_per_page_seconds : ℚ))
    * ((tierMultipliers (effectiveTier cfg tier)).getD 1))

/-- The specification's multiplier table `m` for the timeout formula
(spec §8, "Timeout formula"); unknown tiers fold to 1. -/
def mSpec (t : String) : ℚ :=
  if t = "lightweight" then 1 / 2
  else if t = "standard" then 1
  else if t = "advanced" then 2
  else 1

/-- The specification's timeout formula
`round((60 + 10·page_count) · m(tier))` (spec §8). -/
def specCalcTimeout (page_count : ℕ) (tier : String) : ℤ :=
  round (((60 : ℚ) + 10 * (page_count : ℚ)) * mSpec tier)

/-- Job processing states (`queue.py` `JobState`, lines 19-26). -/
inductive JobState
  | queued
  | processing
  | completed
  | failed
  | cancelled
deriving DecidableEq

/-- The string value of a state (`JobState` is a `str` Enum). -/
def JobState.value : JobState → String
  | .queued => "queued"
  | .processing => "processing"
  | .completed => "completed"
  | .failed => "failed"
  | .cancelled => "cancelled"

/-- The view of the per-job `options` dict that the worker reads
(`queue.py` lines 275-288): `none` stands for an absent key or a
`None` value, which `dict.get` does not distinguish.
`force_full_page_ocr` is read with `dict.get(…, False)`, so it is
represented post-default. -/
structure JobOptions where
  processing_tier : Option String := none
  languages : Option (List String) := none
  force_full_page_ocr : Bool := false
  timeout_seconds : Option ℤ := none
deriving DecidableEq

/-- The dict returned by the conversion engine, to the depth the queue
inspects it (`result["status"]`, `result.get("error")`,
`result.get("markdown")`). -/
structure ConvResult where
  status : String
  markdown : Option String := none
  error : Option String := none
deriving DecidableEq

/-- A document processing job (`queue.py` `Job`, lines 29-47).  Job
ids are abstracted to naturals drawn from a fresh counter (standing
for the uuid4 strings); timestamps are abstract clock readings; the
RSS samples are exact rationals since no arithmetic on them matters
here. -/
structure Job where
  id : ℕ
  file_path : String
  options : JobOptions
  state : JobState := .queued
  progress : ℤ := 0
  result : Option ConvResult := none
  error : Option String := none
  error_type : Option String := none
  created_at : ℕ
  started_at : Option ℕ := none
  completed_at : Option ℕ := none
  trace_id : Option String := none
  correlation_id : Option String := none
  memory_start_mb : Option ℚ := none
  memory_end_mb : Option ℚ := none
deriving DecidableEq

/-- The mutable state owned by a `JobQueue` instance: the `_jobs`
registry and the `_queue` FIFO of ids (`queue.py` lines 69-74),
together with the fresh-id counter abstracting uuid4 and a ledger of
the ids for which the conversion engine has been invoked (an engine
invocation is the `process_document` call at `queue.py` line 284). -/
structure QueueState where
  jobs : ℕ → Option Job
  queue : List ℕ
  nextId : ℕ
  engineCalls : List ℕ

/-- A freshly constructed queue. -/
def QueueState.init : QueueState :=
  { jobs := fun _ => none, queue := [], nextId := 0, engineCalls := [] }

/-- Registry update helper. -/
def setJob (f : ℕ → Option Job) (id : ℕ) (j : Job) : ℕ → Option Job :=
  fun i => if i = id then some j else f i

/-- Python `v or fallback` on an optional string: `None` and the
falsy empty string both yield the fallback. -/
def pyOrStr (v : Option String) (fallback : String) : String :=
  match v with
  | some t => if t = "" then fallback else t
  | none => fallback

/-- The `Job(...)` constructed by `JobQueue.enqueue` (`queue.py`
lines 126-132). -/
def enqueuedJob (job_id : ℕ) (file_path : String) (options : Option JobOptions)
    (trace_id : Option String) (correlation_id : Option String)
    (now : ℕ) (freshTrace : String) : Job :=
  { id := job_id
    file_path := file_path
    options := options.getD {}
    trace_id := some (pyOrStr trace_id freshTrace)
    correlation_id := correlation_id
    created_at := now }

/-- `JobQueue.enqueue` (`queue.py` lines 107-145): mint a fresh id,
record the job in state `queued`, append the id to the FIFO.
`options or {}` replaces a missing (or empty, falsy) dict with `{}`;
`trace_id or str(uuid.uuid4())` replaces a missing or empty trace id
with the freshly minted uuid `freshTrace`. -/
def JobQueue.enqueue (s : QueueState) (file_path : String) (options : Option JobOptions)
    (trace_id : Option String) (correlation_id : Option String)
    (now : ℕ) (freshTrace : String) : ℕ × QueueState :=
  let job_id := s.nextId
  let job := enqueuedJob job_id file_path options trace_id correlation_id now freshTrace
  (job_id,
   { s with
     jobs := setJob s.jobs job_id job
     queue := s.queue ++ [job_id]
     nextId := s.nextId + 1 })

/-- The mutation `JobQueue.cancel` applies to a queued job
(`queue.py` lines 162-163): state to `cancelled`, `completed_at`
stamped; `progress` is NOT touched. -/
def cancelledJob (job : Job) (now : ℕ) : Job :=
  { job with state := .cancelled, completed_at := some now }

/-- `JobQueue.cancel` (`queue.py` lines 147-176): `False` on an
unknown id; if the job is exactly `queued`, flip it to `cancelled` and
stamp `completed_at` (the code does NOT touch `progress`); `False`
without any mutation in every other state. -/
def JobQueue.cancel (s : QueueState) (job_id : ℕ) (now : ℕ) : Bool × QueueState :=
  match s.jobs job_id with
  | none => (false, s)
  | some job =>
    if job.state = .queued then
      (true, { s with jobs := setJob s.jobs job_id (cancelledJob job now) })
    else (false, s)

/-- `job.options.get("timeout_seconds") or calculate_timeout(page_count=100, …)`
(`queue.py` lines 275-278): an absent key, a `None` value, and the
falsy integer `0` all fall back to the computed timeout. -/
def effectiveTimeout (cfg : Settings) (opts : JobOptions) : ℤ :=
  match opts.timeout_seconds with
  | some t => if t = 0 then calculate_timeout cfg 100 opts.processing_tier else t
  | none => calculate_timeout cfg 100 opts.processing_tier

/-- The outcome of the engine invocation awaited at `queue.py`
lines 283-292: the engine returned a result dict, the deadline
expired (`asyncio.TimeoutError`), or the engine raised. -/
inductive Outcome
  | engine (r : ConvResult)
  | timeout
  | exception (msg : String)

/-- The tail of `JobQueue._process_job` (`queue.py` lines 294-346)
applied to the owning worker's job once the engine call settles:
success / engine-reported error / timeout / raised exception, followed
by the `finally` block (`completed_at = now`, `progress = 100`, RSS
end sample — the sample value is irrelevant, it is left as is). -/
def finishJob (cfg : Settings) (job : Job) (outcome : Outcome) (now : ℕ) : Job :=
  let afterTry :=
    match outcome with
    | .engine r =>
      if r.status = "success" then
        { job with progress := 90, state := .completed, result := some r }
      else
        { job with
            progress := 90
            state := .failed
            error := some (r.error.getD "Unknown error")
            error_type := some "processing_error" }
    | .timeout =>
      let msg := "Processing timeout after " ++ toString (effectiveTimeout cfg job.options) ++ " seconds"
      { job with state := .failed, error := some msg, error_type := some "timeout" }
    | .exception msg =>
      { job with state := .failed, error := some msg, error_type := some "processing_error" }
  { afterTry with completed_at := some now, progress := 100 }

/-- One pass of the worker loop from dequeue up to the engine call
(`queue.py` lines 227-235 and the head of `_process_job`,
lines 258-292): pop the head id; if the job is missing or already
`cancelled`, discard it (tombstone) without touching the registry and
without invoking the engine; otherwise claim it — `state = processing`,
`started_at = now`, `progress` set to 10 and then 20 with no
intervening suspension point — and invoke the engine. -/
def workerDequeue (s : QueueState) (now : ℕ) : QueueState :=
  match s.queue with
  | [] => s
  | job_id :: rest =>
    match s.jobs job_id with
    | none => { s with queue := rest }
    | some job =>
      if job.state = .cancelled then { s with queue := rest }
      else
        { s with
          queue := rest
          jobs := setJob s.jobs job_id
            { job with state := .processing, started_at := some now, progress := 20 }
          engineCalls := s.engineCalls ++ [job_id] }

/-- The interleaving-level transitions of the queue subsystem: an
HTTP handler enqueues, an HTTP handler cancels, a worker dequeues
(possibly discarding a tombstone), or the engine call of the worker
owning a `processing` job settles.  Each dequeue-to-claim and
settle-to-terminal block is atomic in the source: it contains no
`await`. -/
inductive QStep : QueueState → QueueState → Prop
  | enqueue (s : QueueState) (fp : String) (opts : Option JobOptions)
      (tr co : Option String) (now : ℕ) (fresh : String) :
      QStep s (JobQueue.enqueue s fp opts tr co now fresh).2
  | cancel (s : QueueState) (id now : ℕ) :
      QStep s (JobQueue.cancel s id now).2
  | dequeue (s : QueueState) (now : ℕ) :
      QStep s (workerDequeue s now)
  | finish (s : QueueState) (id : ℕ) (j : Job) (o : Outcome) (now : ℕ) :
      s.jobs id = some j → j.state = .processing →
      QStep s { s with jobs := setJob s.jobs id (finishJob settings j o now) }

/-- States reachable from a freshly constructed queue. -/
inductive QReachable : QueueState → Prop
  | init : QReachable QueueState.init
  | step {s s' : QueueState} : QReachable s → QStep s s' → QReachable s'

/-- A terminal job state (spec §4.3). -/
def terminalState (st : JobState) : Prop :=
  st = .completed ∨ st = .failed ∨ st = .cancelled

/-- Per-job invariant, by state: what the registry guarantees about
`result`, `error`, `completed_at` and `progress` in each state. -/
def StateInv (j : Job) : Prop :=
  match j.state with
  | .queued => j.result = none ∧ j.error = none ∧ j.completed_at = none ∧ j.progress = 0
  | .processing => j.result = none ∧ j.error = none ∧ j.completed_at = none
  | .completed => j.result ≠ none ∧ j.error = none ∧ j.completed_at ≠ none ∧ j.progress = 100
  | .failed => j.error ≠ none ∧ j.result = none ∧ j.completed_at ≠ none ∧ j.progress = 100
  | .cancelled => j.result = none ∧ j.error = none ∧ j.completed_at ≠ none ∧ j.progress = 0

/-- System invariant of the queue subsystem. -/
structure QInv (s : QueueState) : Prop where
  fresh : ∀ id, s.nextId ≤ id → s.jobs id = none
  nodup : s.queue.Nodup
  queueOk : ∀ id ∈ s.queue, ∃ j, s.jobs id = some j ∧ (j.state = .queued ∨ j.state = .cancelled)
  stateOk : ∀ id j, s.jobs id = some j → StateInv j

/-- Example run, step 1: one document enqueued into a fresh queue. -/
def exS1 : QueueState :=
  (JobQueue.enqueue QueueState.init "/tmp/a.pdf" none none none 0 "t0").2

/-- The job record created by the example enqueue. -/
def exJobQ : Job := enqueuedJob 0 "/tmp/a.pdf" none none none 0 "t0"

/-- Example run, cancellation branch: the queued job is cancelled. -/
def exS2 : QueueState := (JobQueue.cancel exS1 0 5).2

/-- The cancelled job record of the example run. -/
def exJobC : Job := { exJobQ with state := .cancelled, completed_at := some 5 }

/-- Example run, processing branch: the worker claims the queued job. -/
def exS3 : QueueState := workerDequeue exS1 1

/-- The claimed (processing) job record of the example run. -/
def exJobP : Job := { exJobQ with state := .processing, started_at := some 1, progress := 20 }

/-- Example run, processing branch: the engine call succeeds. -/
def exS4 : QueueState :=
  { exS3 with jobs := setJob exS3.jobs 0 (finishJob settings exJobP (.engine { status := "success" }) 2) }

/-- Outcome of `DELETE /api/v1/jobs/{id}` (`routes.py` `cancel_job`,
lines 348-381): 200 with a body, 404, or 400 with the job's state in
the detail string. -/
inductive CancelRouteResult
  | ok (job_id : ℕ) (trace_id : String)
  | notFound
  | badRequest (stateValue : String)
deriving DecidableEq

/-- `routes.py` `cancel_job` (lines 348-381): call `JobQueue.cancel`;
on `False` look the job up — 404 when absent, else 400 naming the
job's current state. -/
def cancel_job (s : QueueState) (job_id now : ℕ) (trace_id : String) :
    CancelRouteResult × QueueState :=
  if (JobQueue.cancel s job_id now).1 then
    (.ok job_id trace_id, (JobQueue.cancel s job_id now).2)
  else
    match (JobQueue.cancel s job_id now).2.jobs job_id with
    | none => (.notFound, (JobQueue.cancel s job_id now).2)
    | some j => (.badRequest j.state.value, (JobQueue.cancel s job_id now).2)

/-- JSON-ish values appearing in the `Job.to_dict` projection. -/
inductive JValue
  | null
  | str (s : String)
  | int (i : ℤ)
  | result (r : ConvResult)
deriving DecidableEq

/-- Abstract rendering of `datetime.isoformat()` on the abstract
clock; the textual format is irrelevant to every claim, only which
timestamps are exposed matters. -/
def isoformat (t : ℕ) : String := toString t

/-- `Job.to_dict` (`queue.py` lines 49-63): the dict the API returns
for a job.  Exactly these eleven keys, in source order; `options`,
`correlation_id` and the RSS samples are not read. -/
def Job.to_dict (j : Job) : List (String × JValue) :=
  [("job_id", .int (j.id : ℤ)),
   ("file_path", .str j.file_path),
   ("status", .str j.state.value),
   ("progress", .int j.progress),
   ("result", match j.result with | some r => .result r | none => .null),
   ("error", match j.error with | some e => .str e | none => .null),
   ("error_type", match j.error_type with | some e => .str e | none => .null),
   ("created_at", .str (isoformat j.created_at)),
   ("started_at", match j.started_at with | some t => .str (isoformat t) | none => .null),
   ("completed_at", match j.completed_at with | some t => .str (isoformat t) | none => .null),
   ("trace_id", match j.trace_id with | some t => .str t | none => .null)]

/-- `JobQueue.get_job` (`queue.py` lines 178-188):
`job.to_dict() if job else None`. -/
def JobQueue.get_job (s : QueueState) (job_id : ℕ) : Option (List (String × JValue)) :=
  (s.jobs job_id).map Job.to_dict

/-- `JobQueue.list_jobs` (`queue.py` lines 190-196), over the list of
registry values. -/
def JobQueue.list_jobs (js : List Job) : List (List (String × JValue)) :=
  js.map Job.to_dict

/-- The key list exposed by `Job.to_dict`. -/
def toDictKeys : List String :=
  ["job_id", "file_path", "status", "progress", "result", "error",
   "error_type", "created_at", "started_at", "completed_at", "trace_id"]

/-- The pydantic input model `ProcessingOptions` (`api/models.py`
lines 9-27).  Exactly these four fields are declared — there is no
`include_page_markers` field. -/
structure ProcessingOptions where
  processing_tier : Option String := none
  languages : Option (List String) := none
  force_full_page_ocr : Bool := false
  timeout_seconds : Option ℤ := none
deriving DecidableEq

/-- A value read off a `ProcessingOptions` attribute. -/
inductive AttrValue
  | vStrOpt (v : Option String)
  | vListOpt (v : Option (List String))
  | vBool (b : Bool)
  | vIntOpt (v : Option ℤ)
deriving DecidableEq

/-- Python attribute access on the pydantic model: a declared field
yields its value, any other name raises `AttributeError` (pydantic
`BaseModel` declares no such attribute). -/
def ProcessingOptions.getattr (o : ProcessingOptions) (name : String) :
    Except String AttrValue :=
  if name = "processing_tier" then .ok (.vStrOpt o.processing_tier)
  else if name = "languages" then .ok (.vListOpt o.languages)
  else if name = "force_full_page_ocr" then .ok (.vBool o.force_full_page_ocr)
  else if name = "timeout_seconds" then .ok (.vIntOpt o.timeout_seconds)
  else .error ("AttributeError: ProcessingOptions has no attribute " ++ name)

/-- `ProcessRequest` (`api/models.py` lines 30-40). -/
structure ProcessRequest where
  file_path : String
  options : Option ProcessingOptions := none
deriving DecidableEq

/-- `BatchProcessRequest` (`api/models.py` lines 43-53). -/
structure BatchProcessRequest where
  file_paths : List String
  options : Option ProcessingOptions := none
deriving DecidableEq

/-- `ProcessResponse` (`api/models.py` lines 56-62). -/
structure ProcessResponse where
  job_id : ℕ
  status : String := "queued"
  message : String := "Document queued for processing"
  trace_id : Option String := none
deriving DecidableEq

/-- `BatchProcessResponse` (`api/models.py` lines 65-72). -/
structure BatchProcessResponse where
  job_ids : List ℕ
  status : String := "queued"
  total_documents : ℕ
  correlation_id : Option String := none
  trace_id : Option String := none
deriving DecidableEq

/-- `routes.py` `get_trace_id` (lines 70-81):
`x_trace_id or str(uuid.uuid4())`. -/
def get_trace_id (x_trace_id : Option String) (fresh : String) : String :=
  pyOrStr x_trace_id fresh

/-- The options-dict marshalling of `routes.py` lines 131-140 (and
identically lines 186-195): with no `options` object, the empty dict;
otherwise the five attribute reads, in source order — the fourth,
`request.options.include_page_markers`, raises because the model
declares no such field.  On success the resulting dict is represented
by the worker view `JobOptions` (the `include_page_markers` key would
be written into the dict but no consumer reads it). -/
def marshalOptions : Option ProcessingOptions → Except String JobOptions
  | none => .ok {}
  | some o => do
    let _ ← o.getattr "processing_tier"
    let _ ← o.getattr "languages"
    let _ ← o.getattr "force_full_page_ocr"
    let _ ← o.getattr "include_page_markers"
    let _ ← o.getattr "timeout_seconds"
    pure
      { processing_tier := o.processing_tier
        languages := o.languages
        force_full_page_ocr := o.force_full_page_ocr
        timeout_seconds := o.timeout_seconds }

/-- `routes.py` `process_document` (lines 115-156): marshal the
options, enqueue, answer `{job_id, status: "queued", message,
trace_id}`.  An exception propagates to the global handler (HTTP
500). -/
def process_document (s : QueueState) (req : ProcessRequest) (trace_id : String)
    (now : ℕ) (freshTrace : String) : Except String (ProcessResponse × QueueState) :=
  match marshalOptions req.options with
  | .error e => .error e
  | .ok options =>
    let r := JobQueue.enqueue s req.file_path (some options) (some trace_id) none now freshTrace
    .ok ({ job_id := r.1
           status := "queued"
           message := "Document queued for processing"
           trace_id := some trace_id }, r.2)

/-- One iteration of the enqueue loop of `routes.py` `process_batch`
(lines 198-206): enqueue the path with the request-level trace id and
the batch correlation id, collect the job id. -/
def batchStep (options : JobOptions) (trace_id corrId : String) (now : ℕ)
    (freshs : ℕ → String) : (List ℕ × QueueState) → String → (List ℕ × QueueState) :=
  fun acc fp =>
    let e := JobQueue.enqueue acc.2 fp (some options) (some trace_id) (some corrId)
      now (freshs acc.1.length)
    (acc.1 ++ [e.1], e.2)

/-- `routes.py` `process_batch` (lines 167-220): one correlation id
for the batch, the SAME request-level `trace_id` passed to every
enqueue, ids collected in order. -/
def process_batch (s : QueueState) (req : BatchProcessRequest) (trace_id corrId : String)
    (now : ℕ) (freshs : ℕ → String) : Except String (BatchProcessResponse × QueueState) :=
  match marshalOptions req.options with
  | .error e => .error e
  | .ok options =>
    let r := req.file_paths.foldl (batchStep options trace_id corrId now freshs) ([], s)
    .ok ({ job_ids := r.1
           status := "queued"
           total_documents := r.1.length
           correlation_id := some corrId
           trace_id := some trace_id }, r.2)

/-- The per-batch invariant carried through the enqueue loop: every id
collected so far is fresh-bounded and its job carries the request
trace id. -/
def BatchInv (trace : String) (acc : List ℕ × QueueState) : Prop :=
  ∀ id ∈ acc.1, id < acc.2.nextId
    ∧ (acc.2.jobs id).map Job.trace_id = some (some trace)

/-- An HTTP response, to the depth the middleware stack touches it:
its header multimap (first entry wins on lookup). -/
structure HttpResponse where
  headers : List (String × String)
deriving DecidableEq

/-- Response-header lookup. -/
def headerLookup (name : String) (hs : List (String × String)) : Option String :=
  (hs.find? (fun p => p.1 == name)).map Prod.snd

/-- `TraceContextMiddleware.dispatch` (`middleware.py` lines 24-58):
`trace_id = request.headers.get("X-Trace-Id") or str(uuid.uuid4())`,
then `response.headers["X-Trace-Id"] = trace_id` on the way out. -/
def traceDispatch (reqTraceHeader : Option String) (fresh : String)
    (inner : HttpResponse) : HttpResponse :=
  { headers := ("X-Trace-Id", pyOrStr reqTraceHeader fresh) :: inner.headers }

/-- The middlewares `create_app` can register. -/
inductive AppMiddleware
  | cors
  | traceContext
deriving DecidableEq

/-- `CORSMiddleware` at the header-name level: it only ever adds
`access-control-*` headers (when an Origin is present), never
`X-Trace-Id`. -/
def corsApply (origin : Option String) (inner : HttpResponse) : HttpResponse :=
  match origin with
  | some o =>
    { headers := ("access-control-allow-origin", o)
        :: ("access-control-allow-credentials", "true") :: inner.headers }
  | none => inner

def applyMiddleware (mw : AppMiddleware) (reqTraceHeader origin : Option String)
    (fresh : String) (resp : HttpResponse) : HttpResponse :=
  match mw with
  | .cors => corsApply origin resp
  | .traceContext => traceDispatch reqTraceHeader fresh resp

/-- The middleware stack `create_app` actually registers (`main.py`
lines 93-124): ONLY `CORSMiddleware`.  `TraceContextMiddleware` is
defined in `middleware.py` but never added to the application. -/
def createAppMiddlewares : List AppMiddleware := [.cors]

/-- The response of the assembled application for a request, as the
registered middleware stack transforms the router's response (route
handlers return the trace id in the JSON body only and set no
response headers). -/
def appResponse (reqTraceHeader origin : Option String) (fresh : String)
    (inner : HttpResponse) : HttpResponse :=
  createAppMiddlewares.foldr
    (fun mw r => applyMiddleware mw reqTraceHeader origin fresh r) inner

lemma pyInt_intCast (n : ℤ) : pyInt (n : ℚ) = n := by
  unfold pyInt
  split <;> simp

/-- Evaluation principle for `calculate_timeout` when the product is
an exact integer. -/
lemma calc_eval (cfg : Settings) (p : ℕ) (tier : Option String) (m : ℚ) (n : ℤ)
    (hm : (tierMultipliers (effectiveTier cfg tier)).getD 1 = m)
    (hn : ((cfg.timeout_base_seconds : ℚ)
      + (p : ℚ) * (cfg.timeout_per_page_seconds : ℚ)) * m = (n : ℚ)) :
    calculate_timeout cfg p tier = n := by
  unfold calculate_timeout
  rw [hm, hn, pyInt_intCast]

/-- With the default settings, the multiplier the code looks up for a
non-null tier agrees with the specification's table `m`. -/
lemma getD_mult_eq (t : String) :
    (tierMultipliers (effectiveTier settings (some t))).getD 1 = mSpec t := by
  by_cases h0 : t = ""
  · subst h0
    show (tierMultipliers "standard").getD 1 = mSpec ""
    rfl
  · show (tierMultipliers (if t = "" then "standard" else t)).getD 1 = mSpec t
    rw [if_neg h0]
    unfold tierMultipliers mSpec
    by_cases hl : t = "lightweight"
    · rw [if_pos hl, if_pos hl, Option.getD_some]
    · rw [if_neg hl, if_neg hl]
      by_cases hs : t = "standard"
      · rw [if_pos hs, if_pos hs, Option.getD_some]
      · rw [if_neg hs, if_neg hs]
        by_cases ha : t = "advanced"
        · rw [if_pos ha, if_pos ha, Option.getD_some]
        · rw [if_neg ha, if_neg ha, Option.getD_none]

/-- Truncation agrees with rounding because the product is an exact
integer for every multiplier in the table. -/
lemma pyInt_round_case (p : ℕ) (m : ℚ) (n : ℤ)
    (h1 : ((settings.timeout_base_seconds : ℚ)
      + (p : ℚ) * (settings.timeout_per_page_seconds : ℚ)) * m = (n : ℚ))
    (h2 : ((60 : ℚ) + 10 * (p : ℚ)) * m = (n : ℚ)) :
    pyInt (((settings.timeout_base_seconds : ℚ)
      + (p : ℚ) * (settings.timeout_per_page_seconds : ℚ)) * m)
    = round (((60 : ℚ) + 10 * (p : ℚ)) * m) := by
  rw [h1, h2, pyInt_intCast, round_intCast]

/-- Kernel of claim C5: with the default configuration the code's
truncating formula equals the spec's rounding formula, for every tier
string. -/
lemma calc_eq_spec (p : ℕ) (t : String) :
    calculate_timeout settings p (some t) = specCalcTimeout p t := by
  unfold calculate_timeout specCalcTimeout
  rw [getD_mult_eq]
  by_cases hl : t = "lightweight"
  · subst hl
    rw [show mSpec "lightweight" = 1 / 2 from rfl]
    exact pyInt_round_case p (1 / 2) (30 + 5 * (p : ℤ))
      (by push_cast [settings]; ring) (by push_cast; ring)
  · by_cases hs : t = "standard"
    · subst hs
      rw [show mSpec "standard" = 1 from rfl]
      exact pyInt_round_case p 1 (60 + 10 * (p : ℤ))
        (by push_cast [settings]; ring) (by push_cast; ring)
    · by_cases ha : t = "advanced"
      · subst ha
        rw [show mSpec "advanced" = 2 from rfl]
        exact pyInt_round_case p 2 (120 + 20 * (p : ℤ))
          (by push_cast [settings]; ring) (by push_cast; ring)
      · rw [show mSpec t = 1 from by unfold mSpec; rw [if_neg hl, if_neg hs, if_neg ha]]
        exact pyInt_round_case p 1 (60 + 10 * (p : ℤ))
          (by push_cast [settings]; ring) (by push_cast; ring)

/-- C5: with the default configuration, `calculate_timeout(p, tier)`
equals `round((60 + 10·p)·m(tier))` for every page count and tier
(`m(lightweight)=1/2`, `m(standard)=1`, `m(advanced)=2`); unknown tier
strings fold to multiplier 1, a null tier folds to the configured
default tier, and the concrete checks 60 / 160 / 80 / 320 hold. -/
theorem C5_timeout_formula :
    (∀ p : ℕ, ∀ t : String, calculate_timeout settings p (some t) = specCalcTimeout p t)
    ∧ (∀ p : ℕ, ∀ t : String, t ≠ "lightweight" → t ≠ "standard" → t ≠ "advanced" →
        calculate_timeout settings p (some t) = round (((60 : ℚ) + 10 * (p : ℚ)) * 1))
    ∧ (∀ p : ℕ, calculate_timeout settings p none
        = calculate_timeout settings p (some settings.processing_tier))
    ∧ calculate_timeout settings 0 (some "standard") = 60
    ∧ calculate_timeout settings 10 (some "standard") = 160
    ∧ calculate_timeout settings 10 (some "lightweight") = 80
    ∧ calculate_timeout settings 10 (some "advanced") = 320 := by
  refine ⟨calc_eq_spec, ?_, ?_, ?_, ?_, ?_, ?_⟩
  · intro p t hl hs ha
    rw [calc_eq_spec]
    unfold specCalcTimeout
    rw [show mSpec t = 1 from by unfold mSpec; rw [if_neg hl, if_neg hs, if_neg ha]]
  · intro p
    rfl
  · exact calc_eval settings 0 (some "standard") 1 60 rfl (by push_cast [settings]; ring)
  · exact calc_eval settings 10 (some "standard") 1 160 rfl (by push_cast [settings]; ring)
  · exact calc_eval settings 10 (some "lightweight") (1 / 2) 80 rfl
      (by push_cast [settings]; norm_num)
  · exact calc_eval settings 10 (some "advanced") 2 320 rfl
      (by push_cast [settings]; ring)

/-- Witness for C5: the universally quantified conjuncts applied at
concrete inputs, with the hypotheses discharged there. -/
theorem C5_timeout_formula_witness :
    calculate_timeout settings 3 (some "advanced") = specCalcTimeout 3 "advanced"
    ∧ calculate_timeout settings 7 (some "turbo")
        = round (((60 : ℚ) + 10 * ((7 : ℕ) : ℚ)) * 1)
    ∧ calculate_timeout settings 5 none
        = calculate_timeout settings 5 (some settings.processing_tier) :=
  ⟨C5_timeout_formula.1 3 "advanced",
   C5_timeout_formula.2.1 7 "turbo" (by decide) (by decide) (by decide),
   C5_timeout_formula.2.2.1 5⟩

lemma setJob_same (f : ℕ → Option Job) (id : ℕ) (j : Job) : setJob f id j id = some j := by
  simp [setJob]

lemma setJob_other (f : ℕ → Option Job) (id : ℕ) (j : Job) (i : ℕ) (h : i ≠ id) :
    setJob f id j i = f i := by
  simp [setJob, h]

lemma jobs_some_lt {s : QueueState} (hi : QInv s) {id : ℕ} {j : Job}
    (h : s.jobs id = some j) : id < s.nextId := by
  by_contra hlt
  push_neg at hlt
  rw [hi.fresh id hlt] at h
  exact Option.noConfusion h

lemma queue_mem_lt {s : QueueState} (hi : QInv s) {id : ℕ} (h : id ∈ s.queue) :
    id < s.nextId := by
  obtain ⟨j, hj, _⟩ := hi.queueOk id h
  exact jobs_some_lt hi hj

lemma qinv_init : QInv QueueState.init := by
  refine ⟨?_, ?_, ?_, ?_⟩
  · intro id _
    rfl
  · exact List.nodup_nil
  · intro id hid
    exact absurd hid (List.not_mem_nil id)
  · intro id j hj
    exact Option.noConfusion hj

lemma qinv_enqueue {s : QueueState} (hi : QInv s) (fp : String) (opts : Option JobOptions)
    (tr co : Option String) (now : ℕ) (fr : String) :
    QInv (JobQueue.enqueue s fp opts tr co now fr).2 := by
  refine ⟨?_, ?_, ?_, ?_⟩
  · intro id hid
    have h1 : s.nextId + 1 ≤ id := hid
    have hne : id ≠ s.nextId := by omega
    show setJob s.jobs s.nextId _ id = none
    rw [setJob_other _ _ _ _ hne]
    exact hi.fresh id (by omega)
  · show (s.queue ++ [s.nextId]).Nodup
    refine List.Nodup.append hi.nodup (List.nodup_singleton _) ?_
    intro a ha hb
    rw [List.mem_singleton] at hb
    subst hb
    exact absurd (queue_mem_lt hi ha) (by omega)
  · intro id hid
    have hmem : id ∈ s.queue ++ [s.nextId] := hid
    rw [List.mem_append, List.mem_singleton] at hmem
    rcases hmem with hq | hnew
    · obtain ⟨j, hj, hst⟩ := hi.queueOk id hq
      have hne : id ≠ s.nextId := by
        have := queue_mem_lt hi hq
        omega
      refine ⟨j, ?_, hst⟩
      show setJob s.jobs s.nextId _ id = some j
      rw [setJob_other _ _ _ _ hne]
      exact hj
    · subst hnew
      refine ⟨_, setJob_same _ _ _, Or.inl rfl⟩
  · intro id j hj
    have h2 : setJob s.jobs s.nextId
        (enqueuedJob s.nextId fp opts tr co now fr) id = some j := hj
    by_cases hne : id = s.nextId
    · subst hne
      rw [setJob_same] at h2
      cases h2
      exact ⟨rfl, rfl, rfl, rfl⟩
    · rw [setJob_other _ _ _ _ hne] at h2
      exact hi.stateOk id j h2

lemma qinv_cancel {s : QueueState} (hi : QInv s) (id now : ℕ) :
    QInv (JobQueue.cancel s id now).2 := by
  unfold JobQueue.cancel
  cases hj : s.jobs id with
  | none => exact hi
  | some job =>
    by_cases hq : job.state = .queued
    · simp only [if_pos hq]
      have hlt : id < s.nextId := jobs_some_lt hi hj
      have hji := hi.stateOk id job hj
      rw [StateInv, hq] at hji
      obtain ⟨hr, he, hca, hpr⟩ := hji
      refine ⟨?_, hi.nodup, ?_, ?_⟩
      · intro i hni
        have hni' : s.nextId ≤ i := hni
        have hii : i ≠ id := by omega
        show setJob s.jobs id _ i = none
        rw [setJob_other _ _ _ _ hii]
        exact hi.fresh i hni'
      · intro i hiq
        have hiq' : i ∈ s.queue := hiq
        obtain ⟨j', hj', hst⟩ := hi.queueOk i hiq'
        by_cases hii : i = id
        · subst hii
          exact ⟨_, setJob_same _ _ _, Or.inr rfl⟩
        · refine ⟨j', ?_, hst⟩
          show setJob s.jobs id _ i = some j'
          rw [setJob_other _ _ _ _ hii]
          exact hj'
      · intro i ji hji
        by_cases hii : i = id
        · subst hii
          have h2 : setJob s.jobs i
              { job with state := .cancelled, completed_at := some now } i = some ji := hji
          rw [setJob_same] at h2
          cases h2
          rw [StateInv]
          exact ⟨hr, he, by simp, hpr⟩
        · have h2 : setJob s.jobs id
              { job with state := .cancelled, completed_at := some now } i = some ji := hji
          rw [setJob_other _ _ _ _ hii] at h2
          exact hi.stateOk i ji h2
    · simp only [if_neg hq]
      exact hi

lemma qinv_dequeue {s : QueueState} (hi : QInv s) (now : ℕ) :
    QInv (workerDequeue s now) := by
  cases hq : s.queue with
  | nil =>
    rw [show workerDequeue s now = s from by unfold workerDequeue; rw [hq]]
    exact hi
  | cons id rest =>
    have hred : workerDequeue s now = (match s.jobs id with
        | none => { s with queue := rest }
        | some job =>
          if job.state = .cancelled then { s with queue := rest }
          else
            { s with
              queue := rest
              jobs := setJob s.jobs id
                { job with state := .processing, started_at := some now, progress := 20 }
              engineCalls := s.engineCalls ++ [id] }) := by
      unfold workerDequeue
      rw [hq]
    rw [hred]
    have hmem : id ∈ s.queue := by
      rw [hq]
      exact List.mem_cons_self id rest
    have hnd : id ∉ rest := by
      have := hi.nodup
      rw [hq] at this
      exact (List.nodup_cons.mp this).1
    have hrest_sub : ∀ i ∈ rest, i ∈ s.queue := by
      intro i hir
      rw [hq]
      exact List.mem_cons_of_mem id hir
    have hrest_nd : rest.Nodup := by
      have := hi.nodup
      rw [hq] at this
      exact (List.nodup_cons.mp this).2
    cases hj : s.jobs id with
    | none =>
      refine ⟨hi.fresh, hrest_nd, ?_, hi.stateOk⟩
      intro i hir
      exact hi.queueOk i (hrest_sub i hir)
    | some job =>
      by_cases hc : job.state = .cancelled
      · simp only [if_pos hc]
        refine ⟨hi.fresh, hrest_nd, ?_, hi.stateOk⟩
        intro i hir
        exact hi.queueOk i (hrest_sub i hir)
      · simp only [if_neg hc]
        have hqd : job.state = .queued := by
          obtain ⟨j', hj', hst⟩ := hi.queueOk id hmem
          rw [hj] at hj'
          cases hj'
          rcases hst with h | h
          · exact h
          · exact absurd h hc
        have hlt : id < s.nextId := jobs_some_lt hi hj
        have hji := hi.stateOk id job hj
        rw [StateInv, hqd] at hji
        obtain ⟨hr, he, hca, hpr⟩ := hji
        refine ⟨?_, hrest_nd, ?_, ?_⟩
        · intro i hni
          have hni' : s.nextId ≤ i := hni
          have hii : i ≠ id := by omega
          show setJob s.jobs id _ i = none
          rw [setJob_other _ _ _ _ hii]
          exact hi.fresh i hni
        · intro i hir
          obtain ⟨j', hj', hst⟩ := hi.queueOk i (hrest_sub i hir)
          have hii : i ≠ id := fun h => hnd (h ▸ hir)
          refine ⟨j', ?_, hst⟩
          show setJob s.jobs id _ i = some j'
          rw [setJob_other _ _ _ _ hii]
          exact hj'
        · intro i ji hji
          by_cases hii : i = id
          · subst hii
            have h2 : setJob s.jobs i
                { job with state := .processing, started_at := some now, progress := 20 } i
                = some ji := hji
            rw [setJob_same] at h2
            cases h2
            rw [StateInv]
            exact ⟨hr, he, hca⟩
          · have h2 : setJob s.jobs id
                { job with state := .processing, started_at := some now, progress := 20 } i
                = some ji := hji
            rw [setJob_other _ _ _ _ hii] at h2
            exact hi.stateOk i ji h2

lemma stateInv_finish {j : Job} (o : Outcome) (now : ℕ)
    (_hp : j.state = .processing)
    (hr : j.result = none) (he : j.error = none) :
    StateInv (finishJob settings j o now) := by
  unfold finishJob
  cases o with
  | engine r =>
    by_cases hsuc : r.status = "success"
    · simp only [if_pos hsuc]
      rw [StateInv]
      exact ⟨by simp, he, by simp, rfl⟩
    · simp only [if_neg hsuc]
      rw [StateInv]
      exact ⟨by simp, hr, by simp, rfl⟩
  | timeout =>
    rw [StateInv]
    exact ⟨by simp, hr, by simp, rfl⟩
  | exception msg =>
    rw [StateInv]
    exact ⟨by simp, hr, by simp, rfl⟩

lemma qinv_finish {s : QueueState} (hi : QInv s) (id : ℕ) (j : Job) (o : Outcome) (now : ℕ)
    (hj : s.jobs id = some j) (hp : j.state = .processing) :
    QInv { s with jobs := setJob s.jobs id (finishJob settings j o now) } := by
  have hlt : id < s.nextId := jobs_some_lt hi hj
  have hji := hi.stateOk id j hj
  rw [StateInv, hp] at hji
  obtain ⟨hr, he, hca⟩ := hji
  refine ⟨?_, hi.nodup, ?_, ?_⟩
  · intro i hni
    have hni' : s.nextId ≤ i := hni
    have hii : i ≠ id := by omega
    show setJob s.jobs id _ i = none
    rw [setJob_other _ _ _ _ hii]
    exact hi.fresh i hni'
  · intro i hiq
    have hiq' : i ∈ s.queue := hiq
    obtain ⟨j', hj', hst⟩ := hi.queueOk i hiq'
    have hii : i ≠ id := by
      intro h
      subst h
      rw [hj] at hj'
      cases hj'
      rcases hst with h | h <;> rw [hp] at h <;> exact JobState.noConfusion h
    refine ⟨j', ?_, hst⟩
    show setJob s.jobs id _ i = some j'
    rw [setJob_other _ _ _ _ hii]
    exact hj'
  · intro i ji hji
    by_cases hii : i = id
    · subst hii
      have h2 : setJob s.jobs i (finishJob settings j o now) i = some ji := hji
      rw [setJob_same] at h2
      cases h2
      exact stateInv_finish o now hp hr he
    · have h2 : setJob s.jobs id (finishJob settings j o now) i = some ji := hji
      rw [setJob_other _ _ _ _ hii] at h2
      exact hi.stateOk i ji h2

lemma qinv_step {s s' : QueueState} (hi : QInv s) (hs : QStep s s') : QInv s' := by
  cases hs with
  | enqueue fp opts tr co now fresh => exact qinv_enqueue hi fp opts tr co now fresh
  | cancel id now => exact qinv_cancel hi id now
  | dequeue now => exact qinv_dequeue hi now
  | finish id j o now hj hp => exact qinv_finish hi id j o now hj hp

/-- Every reachable queue state satisfies the system invariant. -/
lemma qinv_reachable {s : QueueState} (h : QReachable s) : QInv s := by
  induction h with
  | init => exact qinv_init
  | step _ hs ih => exact qinv_step ih hs

lemma exReach1 : QReachable exS1 :=
  QReachable.step QReachable.init
    (QStep.enqueue QueueState.init "/tmp/a.pdf" none none none 0 "t0")

lemma exReach2 : QReachable exS2 :=
  QReachable.step exReach1 (QStep.cancel exS1 0 5)

lemma exReach3 : QReachable exS3 :=
  QReachable.step exReach1 (QStep.dequeue exS1 1)

lemma exReach4 : QReachable exS4 :=
  QReachable.step exReach3
    (QStep.finish exS3 0 exJobP (.engine { status := "success" }) 2 (by decide) (by decide))

/-- C7: in every reachable registry, a job's `result` is non-null iff
its state is `completed`, and its `error` is non-null iff its state is
`failed`, after any sequence of enqueue, cancel and worker steps. -/
theorem C7_result_error_iff_state {s : QueueState} (h : QReachable s) :
    ∀ id j, s.jobs id = some j →
      ((j.result ≠ none ↔ j.state = .completed) ∧ (j.error ≠ none ↔ j.state = .failed)) := by
  intro id j hj
  have hsi := (qinv_reachable h).stateOk id j hj
  cases hst : j.state with
  | queued =>
    rw [StateInv, hst] at hsi
    obtain ⟨hr, he, -, -⟩ := hsi
    simp [hr, he]
  | processing =>
    rw [StateInv, hst] at hsi
    obtain ⟨hr, he, -⟩ := hsi
    simp [hr, he]
  | completed =>
    rw [StateInv, hst] at hsi
    obtain ⟨hr, he, -, -⟩ := hsi
    simp [hr, he]
  | failed =>
    rw [StateInv, hst] at hsi
    obtain ⟨he, hr, -, -⟩ := hsi
    simp [hr, he]
  | cancelled =>
    rw [StateInv, hst] at hsi
    obtain ⟨hr, he, -, -⟩ := hsi
    simp [hr, he]

/-- Witness for C7: the invariant applied to the completed job of the
concrete example run. -/
theorem C7_result_error_iff_state_witness :
    exS4.jobs 0 = some (finishJob settings exJobP (.engine { status := "success" }) 2)
    ∧ (((finishJob settings exJobP (.engine { status := "success" }) 2).result ≠ none
        ↔ (finishJob settings exJobP (.engine { status := "success" }) 2).state = .completed)
      ∧ ((finishJob settings exJobP (.engine { status := "success" }) 2).error ≠ none
        ↔ (finishJob settings exJobP (.engine { status := "success" }) 2).state = .failed)) :=
  ⟨by decide, C7_result_error_iff_state exReach4 0 _ (by decide)⟩

/-- Counterexample for C2 as stated: cancelling the freshly enqueued
(queued, progress 0) job does transition it to `cancelled` and stamps
`completed_at`, but leaves `progress` at 0 — not 100 as the claim
requires. -/
theorem C2_cancel_counterexample :
    (JobQueue.cancel exS1 0 5).1 = true
    ∧ ((JobQueue.cancel exS1 0 5).2.jobs 0).map Job.state = some JobState.cancelled
    ∧ ((JobQueue.cancel exS1 0 5).2.jobs 0).map Job.completed_at = some (some 5)
    ∧ ((JobQueue.cancel exS1 0 5).2.jobs 0).map Job.progress = some 0
    ∧ ((JobQueue.cancel exS1 0 5).2.jobs 0).map Job.progress ≠ some 100 := by
  refine ⟨by decide, by decide, by decide, by decide, by decide⟩

/-- C2 (amended): Cancel flips a job that exists in state exactly
`queued` to `cancelled` and sets `completed_at = now`, leaving
`progress` untouched; in every other case it reports failure
(`NotFound` for an unknown id, `NotCancellable` otherwise) without
mutating anything.  In every reachable state a terminal job has
`completed_at` non-null, `progress = 100` holds for `completed` and
`failed` jobs, while a `cancelled` job keeps `progress = 0`. -/
theorem C2_cancel_behavior {s : QueueState} (h : QReachable s) (id now : ℕ) :
    (s.jobs id = none → JobQueue.cancel s id now = (false, s))
    ∧ (∀ j, s.jobs id = some j → j.state = .queued →
        JobQueue.cancel s id now
          = (true, { s with jobs := setJob s.jobs id (cancelledJob j now) }))
    ∧ (∀ j, s.jobs id = some j → j.state ≠ .queued →
        JobQueue.cancel s id now = (false, s))
    ∧ (∀ i j, s.jobs i = some j → terminalState j.state →
        j.completed_at ≠ none
        ∧ ((j.state = .completed ∨ j.state = .failed) → j.progress = 100)
        ∧ (j.state = .cancelled → j.progress = 0)) := by
  refine ⟨?_, ?_, ?_, ?_⟩
  · intro hn
    unfold JobQueue.cancel
    rw [hn]
  · intro j hj hq
    unfold JobQueue.cancel
    simp only [hj, hq, if_pos]
  · intro j hj hq
    unfold JobQueue.cancel
    simp [hj, hq]
  · intro i j hj ht
    have hsi := (qinv_reachable h).stateOk i j hj
    rcases ht with hst | hst | hst
    · rw [StateInv, hst] at hsi
      obtain ⟨-, -, hca, hpr⟩ := hsi
      exact ⟨hca, fun _ => hpr, fun hc => absurd (hst ▸ hc) (by decide)⟩
    · rw [StateInv, hst] at hsi
      obtain ⟨-, -, hca, hpr⟩ := hsi
      exact ⟨hca, fun _ => hpr, fun hc => absurd (hst ▸ hc) (by decide)⟩
    · rw [StateInv, hst] at hsi
      obtain ⟨-, -, hca, hpr⟩ := hsi
      refine ⟨hca, ?_, fun _ => hpr⟩
      intro hcf
      rcases hcf with hc | hc <;> exact absurd (hst ▸ hc) (by decide)

/-- Witness for C2 (amended): the concrete cancellation of the example
queued job, and the terminal-state facts for the resulting cancelled
job in the reachable post-state. -/
theorem C2_cancel_behavior_witness :
    (exS1.jobs 0 = some exJobQ ∧ exJobQ.state = .queued
      ∧ JobQueue.cancel exS1 0 5
        = (true, { exS1 with jobs := setJob exS1.jobs 0 (cancelledJob exJobQ 5) }))
    ∧ (exS2.jobs 0 = some exJobC ∧ terminalState exJobC.state
      ∧ exJobC.completed_at ≠ none
      ∧ ((exJobC.state = .completed ∨ exJobC.state = .failed) → exJobC.progress = 100)
      ∧ (exJobC.state = .cancelled → exJobC.progress = 0)) := by
  refine ⟨⟨by decide, by decide, ?_⟩, ⟨by decide, Or.inr (Or.inr (by decide)), ?_⟩⟩
  · exact (C2_cancel_behavior exReach1 0 5).2.1 exJobQ (by decide) (by decide)
  · have h4 := (C2_cancel_behavior exReach2 0 5).2.2.2 0 exJobC (by decide)
      (Or.inr (Or.inr (by decide)))
    exact ⟨h4.1, h4.2.1, h4.2.2⟩

lemma workerDequeue_cons {s : QueueState} {id : ℕ} {rest : List ℕ}
    (hq : s.queue = id :: rest) (now : ℕ) :
    workerDequeue s now = (match s.jobs id with
      | none => { s with queue := rest }
      | some job =>
        if job.state = .cancelled then { s with queue := rest }
        else
          { s with
            queue := rest
            jobs := setJob s.jobs id
              { job with state := .processing, started_at := some now, progress := 20 }
            engineCalls := s.engineCalls ++ [id] }) := by
  unfold workerDequeue
  rw [hq]

lemma terminal_ne_queued {st : JobState} (h : terminalState st) : st ≠ .queued := by
  rcases h with h1 | h1 | h1 <;> rw [h1] <;> decide

lemma terminal_ne_processing {st : JobState} (h : terminalState st) : st ≠ .processing := by
  rcases h with h1 | h1 | h1 <;> rw [h1] <;> decide

/-- C8: (a) when the dequeued head id is missing from the registry or
its job is already `cancelled`, the worker only pops the FIFO — the
registry is untouched and the engine is not invoked (the
`engineCalls` ledger is unchanged); (b) no step of the system ever
mutates a job that is in a terminal state, so in particular a
cancelled job never enters `processing`. -/
theorem C8_tombstone_terminal {s : QueueState} (h : QReachable s) :
    (∀ now id rest, s.queue = id :: rest →
      (s.jobs id = none ∨ ∃ j, s.jobs id = some j ∧ j.state = .cancelled) →
      workerDequeue s now = { s with queue := rest })
    ∧ (∀ s', QStep s s' → ∀ id j, s.jobs id = some j → terminalState j.state →
        s'.jobs id = some j) := by
  constructor
  · intro now id rest hq hdis
    rw [workerDequeue_cons hq now]
    rcases hdis with hn | ⟨j, hj, hc⟩
    · rw [hn]
    · simp only [hj, hc, if_pos]
  · intro s' hstep id j hj ht
    cases hstep with
    | enqueue fp opts tr co now fresh =>
      have hlt : id < s.nextId := jobs_some_lt (qinv_reachable h) hj
      show setJob s.jobs s.nextId (enqueuedJob s.nextId fp opts tr co now fresh) id = some j
      rw [setJob_other _ _ _ _ (by omega)]
      exact hj
    | cancel cid now =>
      unfold JobQueue.cancel
      cases hcj : s.jobs cid with
      | none => exact hj
      | some cj =>
        by_cases hcq : cj.state = .queued
        · have hne : id ≠ cid := by
            intro he
            subst he
            rw [hj] at hcj
            cases hcj
            exact terminal_ne_queued ht hcq
          simp only [hcq, if_pos]
          show setJob s.jobs cid (cancelledJob cj now) id = some j
          rw [setJob_other _ _ _ _ hne]
          exact hj
        · simp only [if_neg hcq]
          exact hj
    | dequeue now =>
      cases hq : s.queue with
      | nil =>
        rw [show workerDequeue s now = s from by unfold workerDequeue; rw [hq]]
        exact hj
      | cons qid rest =>
        rw [workerDequeue_cons hq now]
        cases hqj : s.jobs qid with
        | none => exact hj
        | some qj =>
          by_cases hqc : qj.state = .cancelled
          · simp only [hqc, if_pos]
            exact hj
          · simp only [if_neg hqc]
            have hqd : qj.state = .queued := by
              obtain ⟨j', hj', hst⟩ := (qinv_reachable h).queueOk qid
                (by rw [hq]; exact List.mem_cons_self qid rest)
              rw [hqj] at hj'
              cases hj'
              rcases hst with h1 | h1
              · exact h1
              · exact absurd h1 hqc
            have hne : id ≠ qid := by
              intro he
              subst he
              rw [hj] at hqj
              cases hqj
              exact terminal_ne_queued ht hqd
            show setJob s.jobs qid
              { qj with state := .processing, started_at := some now, progress := 20 } id
              = some j
            rw [setJob_other _ _ _ _ hne]
            exact hj
    | finish fid fj o now hfj hfp =>
      have hne : id ≠ fid := by
        intro he
        subst he
        rw [hj] at hfj
        cases hfj
        exact terminal_ne_processing ht hfp
      show setJob s.jobs fid (finishJob settings fj o now) id = some j
      rw [setJob_other _ _ _ _ hne]
      exact hj

/-- Witness for C8: in the concrete reachable state whose FIFO head is
the cancelled example job, the worker pass just pops the FIFO, and a
further step (a second Cancel) leaves the terminal job untouched. -/
theorem C8_tombstone_terminal_witness :
    exS2.queue = [0]
    ∧ workerDequeue exS2 7 = { exS2 with queue := [] }
    ∧ (JobQueue.cancel exS2 0 9).2.jobs 0 = some exJobC :=
  ⟨by decide,
   (C8_tombstone_terminal exReach2).1 7 0 [] (by decide)
     (Or.inr ⟨exJobC, by decide, by decide⟩),
   (C8_tombstone_terminal exReach2).2 _ (QStep.cancel exS2 0 9) 0 exJobC (by decide)
     (Or.inr (Or.inr (by decide)))⟩

/-- C9: cancellation is idempotent-safe.  After a Cancel has
effectively cancelled a job, the job is in state `cancelled`, and
every later Cancel of the same id is a no-op returning `False`, which
the HTTP route maps to 400 `NotCancellable` naming state
`"cancelled"`; the registry is not mutated again. -/
theorem C9_cancel_idempotent {s : QueueState} (id now1 now2 : ℕ) (trace : String)
    (h : (JobQueue.cancel s id now1).1 = true) :
    ((JobQueue.cancel s id now1).2.jobs id).map Job.state = some JobState.cancelled
    ∧ JobQueue.cancel (JobQueue.cancel s id now1).2 id now2
        = (false, (JobQueue.cancel s id now1).2)
    ∧ cancel_job (JobQueue.cancel s id now1).2 id now2 trace
        = (.badRequest "cancelled", (JobQueue.cancel s id now1).2) := by
  cases hj : s.jobs id with
  | none =>
    simp [JobQueue.cancel, hj] at h
  | some j =>
    by_cases hq : j.state = .queued
    · have hs2 : (JobQueue.cancel s id now1).2
          = { s with jobs := setJob s.jobs id (cancelledJob j now1) } := by
        simp [JobQueue.cancel, hj, hq]
      rw [hs2]
      have hRj : ({ s with jobs := setJob s.jobs id (cancelledJob j now1) }
          : QueueState).jobs id = some (cancelledJob j now1) := setJob_same _ _ _
      have hc2 : JobQueue.cancel
          { s with jobs := setJob s.jobs id (cancelledJob j now1) } id now2
          = (false, { s with jobs := setJob s.jobs id (cancelledJob j now1) }) := by
        simp [JobQueue.cancel, setJob, cancelledJob]
      refine ⟨?_, hc2, ?_⟩
      · rw [hRj]
        rfl
      · unfold cancel_job
        rw [hc2]
        simp [setJob, cancelledJob, JobState.value]
    · simp [JobQueue.cancel, hj, hq] at h

/-- Witness for C9: the concrete first cancellation of the example
queued job succeeds, and the theorem yields the no-op second call and
its 400 response. -/
theorem C9_cancel_idempotent_witness :
    (JobQueue.cancel exS1 0 5).1 = true
    ∧ (((JobQueue.cancel exS1 0 5).2.jobs 0).map Job.state = some JobState.cancelled
      ∧ JobQueue.cancel (JobQueue.cancel exS1 0 5).2 0 9
          = (false, (JobQueue.cancel exS1 0 5).2)
      ∧ cancel_job (JobQueue.cancel exS1 0 5).2 0 9 "tr"
          = (.badRequest "cancelled", (JobQueue.cancel exS1 0 5).2)) :=
  ⟨by decide, C9_cancel_idempotent 0 5 9 "tr" (by decide)⟩

/-- Counterexample for C6 as stated: `timeout_seconds = 0` is set, yet
the effective timeout is not 0 but the computed fallback
`calculate_timeout(100, default tier) = 1060`, because Python's `or`
treats the integer 0 as falsy. -/
theorem C6_timeout_zero_counterexample :
    ({ timeout_seconds := some 0 } : JobOptions).timeout_seconds = some 0
    ∧ effectiveTimeout settings { timeout_seconds := some 0 } = 1060
    ∧ effectiveTimeout settings { timeout_seconds := some 0 } ≠ 0 := by
  have h1 : effectiveTimeout settings { timeout_seconds := some 0 }
      = calculate_timeout settings 100 none := rfl
  have h2 : calculate_timeout settings 100 none = 1060 :=
    calc_eval settings 100 none 1 1060 rfl (by push_cast [settings]; ring)
  refine ⟨rfl, h1.trans h2, ?_⟩
  rw [h1, h2]
  decide

/-- C6 (amended): the effective timeout is `options.timeout_seconds`
whenever that option is set to a NONZERO value, and otherwise (unset
or set to 0) `calculate_timeout(100, options.processing_tier)`, whose
effective tier is the option when set and non-empty, else the
configured default; on deadline expiry the job goes from `processing`
to `failed` with `error_type = "timeout"` and error string
`"Processing timeout after N seconds"` for the effective timeout `N`,
with `completed_at` stamped and `progress = 100` by the finally
block. -/
theorem C6_effective_timeout (opts : JobOptions) :
    (∀ t : ℤ, opts.timeout_seconds = some t → t ≠ 0 →
      effectiveTimeout settings opts = t)
    ∧ ((opts.timeout_seconds = none ∨ opts.timeout_seconds = some 0) →
      effectiveTimeout settings opts = calculate_timeout settings 100 opts.processing_tier)
    ∧ (∀ t : String, t ≠ "" → effectiveTier settings (some t) = t)
    ∧ effectiveTier settings none = settings.processing_tier
    ∧ (∀ (j : Job) (now : ℕ), j.state = .processing →
      finishJob settings j .timeout now
        = { j with
            state := .failed
            error := some ("Processing timeout after "
              ++ toString (effectiveTimeout settings j.options) ++ " seconds")
            error_type := some "timeout"
            completed_at := some now
            progress := 100 }) := by
  refine ⟨?_, ?_, ?_, rfl, ?_⟩
  · intro t ht hnz
    simp only [effectiveTimeout, ht]
    rw [if_neg hnz]
  · intro hd
    rcases hd with hn | h0
    · simp only [effectiveTimeout, hn]
    · simp only [effectiveTimeout, h0, if_pos]
  · intro t ht
    show (if t = "" then settings.processing_tier else t) = t
    rw [if_neg ht]
  · intro j now _
    rfl

/-- Witness for C6 (amended): a job whose options set
`timeout_seconds = 120` times out with the literal 120-second message,
and the unset case falls back to the computed timeout. -/
theorem C6_effective_timeout_witness :
    (({ timeout_seconds := some 120 } : JobOptions).timeout_seconds = some 120
      ∧ (120 : ℤ) ≠ 0
      ∧ effectiveTimeout settings { timeout_seconds := some 120 } = 120)
    ∧ (effectiveTimeout settings {} = calculate_timeout settings 100 none)
    ∧ (exJobP.state = .processing
      ∧ finishJob settings exJobP .timeout 2
        = { exJobP with
            state := .failed
            error := some ("Processing timeout after "
              ++ toString (effectiveTimeout settings exJobP.options) ++ " seconds")
            error_type := some "timeout"
            completed_at := some 2
            progress := 100 }) :=
  ⟨⟨rfl, by decide, (C6_effective_timeout { timeout_seconds := some 120 }).1 120 rfl (by decide)⟩,
   (C6_effective_timeout {}).2.1 (Or.inl rfl),
   ⟨by decide, (C6_effective_timeout {}).2.2.2.2 exJobP 2 (by decide)⟩⟩

lemma to_dict_keys (j : Job) : (Job.to_dict j).map Prod.fst = toDictKeys := rfl

/-- C10: Get and List expose exactly the eleven fields `job_id`,
`file_path`, `status`, `progress`, `result`, `error`, `error_type`,
`created_at`, `started_at`, `completed_at`, `trace_id`; the projection
does not depend on `correlation_id`, `options` or the RSS samples, so
none of them (in particular batch membership) is recoverable over the
HTTP surface. -/
theorem C10_projection_fields :
    (∀ j : Job, (Job.to_dict j).map Prod.fst = toDictKeys)
    ∧ (∀ (j : Job) (c : Option String) (o : JobOptions) (m1 m2 : Option ℚ),
        Job.to_dict
          { j with
              correlation_id := c
              options := o
              memory_start_mb := m1
              memory_end_mb := m2 }
          = Job.to_dict j)
    ∧ (∀ (s : QueueState) (id : ℕ) (j : Job), s.jobs id = some j →
        JobQueue.get_job s id = some (Job.to_dict j))
    ∧ (∀ js : List Job, ∀ d ∈ JobQueue.list_jobs js, d.map Prod.fst = toDictKeys) := by
  refine ⟨to_dict_keys, ?_, ?_, ?_⟩
  · intro j c o m1 m2
    rfl
  · intro s id j hj
    unfold JobQueue.get_job
    rw [hj]
    rfl
  · intro js d hd
    obtain ⟨j, -, hdj⟩ := List.mem_map.mp hd
    rw [← hdj]
    exact to_dict_keys j

/-- Witness for C10: the projection facts applied to the concrete
example job and registry. -/
theorem C10_projection_fields_witness :
    exS1.jobs 0 = some exJobQ
    ∧ JobQueue.get_job exS1 0 = some (Job.to_dict exJobQ)
    ∧ Job.to_dict exJobQ ∈ JobQueue.list_jobs [exJobQ]
    ∧ (Job.to_dict exJobQ).map Prod.fst = toDictKeys :=
  ⟨by decide,
   C10_projection_fields.2.2.1 exS1 0 exJobQ (by decide),
   by decide,
   C10_projection_fields.2.2.2 [exJobQ] (Job.to_dict exJobQ) (by decide)⟩

/-- C1: the code contradicts the claim (and its own contract tests)
for every request whose `options` object is present: the marshalling
reads the undeclared attribute `include_page_markers`, which raises
`AttributeError` before anything is enqueued — the request produces a
500, not `{job_id, status: "queued", …}`.  Without `options` the
endpoint behaves as claimed, and the batch path fails and succeeds in
exactly the same way. -/
theorem C1_options_attribute_error :
    process_document QueueState.init { file_path := "/tmp/test.pdf", options := some {} }
        "tr" 0 "f0"
      = .error "AttributeError: ProcessingOptions has no attribute include_page_markers"
    ∧ process_document QueueState.init { file_path := "/tmp/test.pdf" } "tr" 0 "f0"
      = .ok ({ job_id := 0
               status := "queued"
               message := "Document queued for processing"
               trace_id := some "tr" },
          (JobQueue.enqueue QueueState.init "/tmp/test.pdf" (some {}) (some "tr")
            none 0 "f0").2)
    ∧ process_batch QueueState.init { file_paths := ["/a.pdf"], options := some {} }
        "tr" "c0" 0 (fun _ => "z")
      = .error "AttributeError: ProcessingOptions has no attribute include_page_markers"
    ∧ (process_batch QueueState.init { file_paths := ["/a.pdf", "/b.pdf"] }
        "tr" "c0" 0 (fun _ => "z")).map (fun p => (p.1.job_ids, p.1.status))
      = .ok ([0, 1], "queued") :=
  ⟨rfl, rfl, rfl, rfl⟩

/-- Counterexample for C4 as stated: a two-file batch submitted with
NO caller trace id.  `get_trace_id` mints one uuid for the request,
and both sibling jobs carry exactly that trace id — they are equal,
not pairwise distinct. -/
theorem C4_trace_not_independent_counterexample :
    get_trace_id none "u0" = "u0"
    ∧ (process_batch QueueState.init { file_paths := ["/a.pdf", "/b.pdf"] }
        "u0" "c0" 0 (fun _ => "z")).map (fun p => p.1.job_ids) = .ok [0, 1]
    ∧ (process_batch QueueState.init { file_paths := ["/a.pdf", "/b.pdf"] }
        "u0" "c0" 0 (fun _ => "z")).map (fun p => (p.2.jobs 0).map Job.trace_id)
      = .ok (some (some "u0"))
    ∧ (process_batch QueueState.init { file_paths := ["/a.pdf", "/b.pdf"] }
        "u0" "c0" 0 (fun _ => "z")).map (fun p => (p.2.jobs 1).map Job.trace_id)
      = .ok (some (some "u0")) :=
  ⟨rfl, rfl, rfl, rfl⟩

lemma batchStep_inv (opts : JobOptions) (trace corrId : String) (now : ℕ)
    (freshs : ℕ → String) (htr : trace ≠ "") (acc : List ℕ × QueueState) (fp : String)
    (h : BatchInv trace acc) :
    BatchInv trace (batchStep opts trace corrId now freshs acc fp) := by
  intro id hid
  have hid' : id ∈ acc.1 ++ [acc.2.nextId] := hid
  rw [List.mem_append, List.mem_singleton] at hid'
  rcases hid' with hold | hnew
  · obtain ⟨hlt, htr_id⟩ := h id hold
    refine ⟨?_, ?_⟩
    · show id < acc.2.nextId + 1
      omega
    · show (setJob acc.2.jobs acc.2.nextId _ id).map Job.trace_id = some (some trace)
      rw [setJob_other _ _ _ _ (by omega)]
      exact htr_id
  · subst hnew
    refine ⟨?_, ?_⟩
    · show acc.2.nextId < acc.2.nextId + 1
      omega
    · show (setJob acc.2.jobs acc.2.nextId
        (enqueuedJob acc.2.nextId fp (some opts) (some trace) (some corrId)
          now (freshs acc.1.length)) acc.2.nextId).map Job.trace_id = some (some trace)
      rw [setJob_same]
      simp [enqueuedJob, pyOrStr, htr]

lemma batch_foldl_inv (opts : JobOptions) (trace corrId : String) (now : ℕ)
    (freshs : ℕ → String) (htr : trace ≠ "") (paths : List String) :
    ∀ acc : List ℕ × QueueState, BatchInv trace acc →
      BatchInv trace (paths.foldl (batchStep opts trace corrId now freshs) acc) := by
  induction paths with
  | nil =>
    intro acc h
    exact h
  | cons p ps ih =>
    intro acc h
    rw [List.foldl_cons]
    exact ih _ (batchStep_inv opts trace corrId now freshs htr acc p h)

/-- C4 (amended): all sibling jobs of a batch share ONE trace id — the
value `get_trace_id` resolved for the request.  When the caller
supplied a (non-empty) `X-Trace-Id`, that is exactly the supplied
value; when the caller supplied none, it is the single freshly minted
uuid, shared by the whole batch rather than independent per
sibling. -/
theorem C4_batch_trace_shared (s : QueueState) (paths : List String)
    (trace corrId : String) (now : ℕ) (freshs : ℕ → String) (htr : trace ≠ "") :
    process_batch s { file_paths := paths } trace corrId now freshs
      = .ok ({ job_ids := (paths.foldl (batchStep {} trace corrId now freshs) ([], s)).1
               status := "queued"
               total_documents := (paths.foldl (batchStep {} trace corrId now freshs) ([], s)).1.length
               correlation_id := some corrId
               trace_id := some trace },
             (paths.foldl (batchStep {} trace corrId now freshs) ([], s)).2)
    ∧ (∀ id ∈ (paths.foldl (batchStep {} trace corrId now freshs) ([], s)).1,
        ((paths.foldl (batchStep {} trace corrId now freshs) ([], s)).2.jobs id).map Job.trace_id
          = some (some trace))
    ∧ (∀ x fresh : String, x ≠ "" → get_trace_id (some x) fresh = x)
    ∧ (∀ fresh : String, get_trace_id none fresh = fresh) := by
  refine ⟨rfl, ?_, ?_, fun fresh => rfl⟩
  · intro id hid
    exact (batch_foldl_inv {} trace corrId now freshs htr paths ([], s)
      (fun i hi => absurd hi (List.not_mem_nil i)) id hid).2
  · intro x fresh hx
    show pyOrStr (some x) fresh = x
    simp [pyOrStr, hx]

/-- Witness for C4 (amended): the concrete two-file batch with caller
trace id "T": both siblings carry exactly "T". -/
theorem C4_batch_trace_shared_witness :
    ("T" : String) ≠ ""
    ∧ 0 ∈ (["/a.pdf", "/b.pdf"].foldl (batchStep {} "T" "c0" 0 (fun _ => "z"))
        ([], QueueState.init)).1
    ∧ ((["/a.pdf", "/b.pdf"].foldl (batchStep {} "T" "c0" 0 (fun _ => "z"))
        ([], QueueState.init)).2.jobs 0).map Job.trace_id = some (some "T")
    ∧ get_trace_id (some "T") "z" = "T" :=
  ⟨by decide, by decide,
   (C4_batch_trace_shared QueueState.init ["/a.pdf", "/b.pdf"] "T" "c0" 0 (fun _ => "z")
     (by decide)).2.1 0 (by decide),
   (C4_batch_trace_shared QueueState.init ["/a.pdf", "/b.pdf"] "T" "c0" 0 (fun _ => "z")
     (by decide)).2.2.1 "T" "z" (by decide)⟩

/-- C3: the application assembled by `create_app` never emits an
`X-Trace-Id` response header — `TraceContextMiddleware` (which would
echo the supplied value, or a freshly minted uuid when absent) is dead
code, registered nowhere.  For every request, with or without an
Origin, the response header is absent; the dispatch method itself
would have set it as the claim and spec describe. -/
theorem C3_trace_header_never_set :
    (∀ (reqTraceHeader origin : Option String) (fresh : String),
      headerLookup "X-Trace-Id"
        (appResponse reqTraceHeader origin fresh { headers := [] }).headers = none)
    ∧ (∀ (reqTraceHeader : Option String) (fresh : String) (inner : HttpResponse),
      headerLookup "X-Trace-Id" (traceDispatch reqTraceHeader fresh inner).headers
        = some (pyOrStr reqTraceHeader fresh))
    ∧ headerLookup "X-Trace-Id"
        (appResponse (some "550e8400-e29b-41d4-a716-446655440000") none "f0"
          { headers := [] }).headers = none
    ∧ headerLookup "X-Trace-Id"
        (traceDispatch (some "550e8400-e29b-41d4-a716-446655440000") "f0"
          { headers := [] }).headers
      = some "550e8400-e29b-41d4-a716-446655440000"
    ∧ createAppMiddlewares = [AppMiddleware.cors] := by
  refine ⟨?_, ?_, by decide, by decide, rfl⟩
  · intro reqTraceHeader origin fresh
    cases origin <;> rfl
  · intro reqTraceHeader fresh inner
    rfl
